import Mathlib

/-!
Shallow embedding of the repository (scraper.py and movie_notifier.py).
Strings are modelled through their character lists, Python floats as
rationals, network and filesystem effects as explicit function arguments
and operation traces.  Selector-level HTML details are abstracted into
record fields holding what the corresponding BeautifulSoup queries return,
matching the layering of the code.
-/

/-! ## Character helpers for normalizar_titulo (scraper.py lines 165-176) -/

/-- ASCII whitespace: the ASCII members of the regex whitespace class
(the non-ASCII members fall outside the modelled alphabet). -/
def isPyWs (c : Char) : Bool :=
  decide (c.toNat = 32 ∨ c.toNat = 9 ∨ c.toNat = 10 ∨ c.toNat = 13 ∨
    c.toNat = 11 ∨ c.toNat = 12)

/-- Characters of the character class [a-z0-9]. -/
def lowAl (c : Char) : Bool :=
  decide ((97 ≤ c.toNat ∧ c.toNat ≤ 122) ∨ (48 ≤ c.toNat ∧ c.toNat ≤ 57))

/-- A character that can survive normalization: lowercase alphanumeric or a
plain space. -/
def goodCh (c : Char) : Bool := lowAl c || c == ' '

/-- Characters kept by the substitution that deletes the complement of
[a-z0-9] and whitespace (scraper.py line 174). -/
def keepCh (c : Char) : Bool := lowAl c || isPyWs c

/-- Python str.lower restricted to Basic Latin and Latin-1 letters:
codepoints 65-90 and 192-222 (except 215, the multiplication sign) gain 32. -/
def pyLower (c : Char) : Char :=
  if 65 ≤ c.toNat ∧ c.toNat ≤ 90 then Char.ofNat (c.toNat + 32)
  else if 192 ≤ c.toNat ∧ c.toNat ≤ 222 ∧ c.toNat ≠ 215 then Char.ofNat (c.toNat + 32)
  else c

/-- The fixed accent-replacement table reemplazos of scraper.py line 169. -/
def tableFold (c : Char) : Char :=
  if c = 'á' ∨ c = 'à' then 'a'
  else if c = 'é' ∨ c = 'è' then 'e'
  else if c = 'í' ∨ c = 'ì' then 'i'
  else if c = 'ó' ∨ c = 'ò' then 'o'
  else if c = 'ú' ∨ c = 'ù' ∨ c = 'ü' then 'u'
  else if c = 'ñ' then 'n'
  else c

/-- Lowercasing followed by the accent table, applied to one character. -/
def foldChar (c : Char) : Char := tableFold (pyLower c)

/-- One pass of the substitution replacing every maximal whitespace run by a
single space; the flag records whether the position is inside a run whose
space was already emitted. -/
def collapseAux : Bool → List Char → List Char
  | _, [] => []
  | inRun, c :: cs =>
    if isPyWs c then
      if inRun then collapseAux true cs else ' ' :: collapseAux true cs
    else c :: collapseAux false cs

/-- The substitution of every whitespace run by a single space. -/
def collapseWs (l : List Char) : List Char := collapseAux false l

/-- Removal of trailing whitespace (the right half of str.strip). -/
def rstripCh : List Char → List Char
  | [] => []
  | c :: cs =>
    match rstripCh cs with
    | [] => if isPyWs c then [] else [c]
    | r => c :: r

/-- Python str.strip: leading and trailing whitespace removed. -/
def stripCh (l : List Char) : List Char := rstripCh (l.dropWhile isPyWs)

/-- The whole pipeline of normalizar_titulo on character lists: lower, strip,
accent table, delete everything outside [a-z0-9] and whitespace, collapse
whitespace runs, strip. -/
def pipelineCh (l : List Char) : List Char :=
  stripCh (collapseWs (List.filter keepCh
    (List.map tableFold (stripCh (List.map pyLower l)))))

/-- scraper.py lines 165-176: normalize a title into its history key. -/
def normalizar_titulo (titulo : String) : String :=
  ⟨pipelineCh titulo.data⟩

/-- Latin-1 lowercase diacritics folded to their base letter: the general
diacritic folding described by the words of the specification, wider than
the fixed table of the code. -/
def fullFold (c : Char) : Char :=
  if 224 ≤ c.toNat ∧ c.toNat ≤ 229 then 'a'
  else if c.toNat = 231 then 'c'
  else if 232 ≤ c.toNat ∧ c.toNat ≤ 235 then 'e'
  else if 236 ≤ c.toNat ∧ c.toNat ≤ 239 then 'i'
  else if c.toNat = 241 then 'n'
  else if (242 ≤ c.toNat ∧ c.toNat ≤ 246) ∨ c.toNat = 248 then 'o'
  else if 249 ≤ c.toNat ∧ c.toNat ≤ 252 then 'u'
  else if c.toNat = 253 ∨ c.toNat = 255 then 'y'
  else c

/-- Canonical form written after the words of the specification data model:
lower-cased, diacritics folded to base Latin letters, non-alphanumeric
characters collapsed to single spaces, trimmed.  Two raw titles differ only
in case, diacritics, or punctuation and spacing exactly when their canonical
forms agree. -/
def canonSpecFull (s : String) : String :=
  ⟨stripCh (collapseWs ((s.data.map (fun c => fullFold (pyLower c))).map
    (fun c => if lowAl c then c else ' ')))⟩

/-! ## Persistent history (scraper.py lines 179-215) -/

/-- One value of the peliculas mapping (scraper.py lines 204-209). -/
structure Entrada where
  titulo : String
  nota : ℚ
  fecha : String
  notificado : Bool
deriving DecidableEq

/-- The history document: the top-level peliculas mapping, kept as an
association list whose first binding for a key is the current one. -/
structure Historial where
  peliculas : List (String × Entrada)
deriving DecidableEq

/-- JSON scalar values, to state what json.dump writes for a field. -/
inductive JVal
  | null
  | num (q : ℚ)
  | str (s : String)
  | jbool (b : Bool)
deriving DecidableEq

/-- The object json.dump writes for one history entry. -/
def entradaJson (e : Entrada) : List (String × JVal) :=
  [("titulo", JVal.str e.titulo), ("nota", JVal.num e.nota),
   ("fecha", JVal.str e.fecha), ("notificado", JVal.jbool e.notificado)]

/-- The state of the history file as later parsing would see it. -/
inductive DiskDoc
  | absent
  | corrupt
  | valid (h : Historial)
deriving DecidableEq

def HISTORIAL_FILE : String := "historial.json"

/-- scraper.py lines 179-187: load the history; the boolean reports whether
the error line of the except branch was printed. -/
def cargar_historial : DiskDoc → Historial × Bool
  | DiskDoc.absent => (⟨[]⟩, false)
  | DiskDoc.corrupt => (⟨[]⟩, true)
  | DiskDoc.valid h => (h, false)

/-- Filesystem operations performed by the save paths. -/
inductive FsOp
  | openWrite (path : String)
  | writeDoc (path : String) (doc : Historial)
  | writeList (path : String) (l : List String)
  | rename (src : String) (dst : String)
deriving DecidableEq

def isRenameOp : FsOp → Bool
  | FsOp.rename _ _ => true
  | _ => false

/-- scraper.py lines 190-198: open the target itself for writing (truncating
it) and dump the document; returns the new disk state, the boolean result,
and the file operations performed. -/
def guardar_historial (historial : Historial) (disk : DiskDoc) :
    DiskDoc × Bool × List FsOp :=
  (DiskDoc.valid historial, true,
   [FsOp.openWrite HISTORIAL_FILE, FsOp.writeDoc HISTORIAL_FILE historial])

/-- The state of the processed file of movie_notifier.py. -/
inductive NotifDisk
  | absent
  | corrupt
  | valid (l : List String)
deriving DecidableEq

def PROCESSED_FILE : String := "processed_torrents.json"

/-- movie_notifier.py lines 31-35: a malformed document raises out of
json.load and nothing in load_processed catches it. -/
def load_processed : NotifDisk → Except String (List String)
  | NotifDisk.absent => Except.ok []
  | NotifDisk.corrupt => Except.error "json.decoder.JSONDecodeError"
  | NotifDisk.valid l => Except.ok l

/-- movie_notifier.py lines 37-39: direct overwrite of the processed file. -/
def save_processed (processed : List String) (disk : NotifDisk) :
    NotifDisk × List FsOp :=
  (NotifDisk.valid processed,
   [FsOp.openWrite PROCESSED_FILE, FsOp.writeList PROCESSED_FILE processed])

/-- scraper.py lines 203 and 214: the dedup key of a cleaned title. -/
def clave (titulo : String) : String := normalizar_titulo titulo

/-- scraper.py lines 212-215. -/
def ya_analizada (historial : Historial) (titulo_limpio : String) : Bool :=
  historial.peliculas.any (fun p => p.1 == clave titulo_limpio)

/-- scraper.py lines 201-209: dictionary assignment, modelled by prepending
the binding (reads take the first match); the date of datetime.now is an
explicit argument. -/
def agregar_al_historial (historial : Historial) (titulo_limpio : String)
    (nota : ℚ) (notificado : Bool) (fecha : String) : Historial :=
  ⟨(clave titulo_limpio, ⟨titulo_limpio, nota, fecha, notificado⟩) ::
    historial.peliculas⟩

/-- Reading one entry of the mapping. -/
def buscar (historial : Historial) (k : String) : Option Entrada :=
  (historial.peliculas.find? (fun p => p.1 == k)).map (fun p => p.2)

/-! ## FilmAffinity lookup client (scraper.py lines 218-382) -/

/-- What the BeautifulSoup queries of search_filmaffinity and
extract_movie_info find on one fetched page. -/
structure Page where
  /-- select_one of the result-card selectors together with the href of the
  film link inside the card: none when no card, some none when a card
  without such a link. -/
  card : Option (Option String)
  /-- extract_rating applied to the page (scraper.py lines 320-340). -/
  pageRating : Option ℚ
  /-- the href of the first film link found anywhere on the page. -/
  firstFilm : Option String
  title : Option String
  genre : Option String
  platforms : List String
deriving DecidableEq

structure MovieInfo where
  url : String
  title : String
  rating : Option ℚ
  genre : String
  platforms : List String
deriving DecidableEq

/-- Python truthiness of the rating value: present and nonzero. -/
def ratingTruthy : Option ℚ → Bool
  | some v => decide (v ≠ 0)
  | none => false

/-- scraper.py lines 343-382: the final line returns the dictionary only when
its rating field is truthy. -/
def extract_movie_info (p : Page) (url : String) : Option MovieInfo :=
  let info : MovieInfo :=
    { url := url
      title := p.title.getD "Desconocido"
      rating := p.pageRating
      genre := p.genre.getD "No especificado"
      platforms :=
        if p.platforms.isEmpty then ["No disponible en streaming"]
        else p.platforms }
  if ratingTruthy info.rating then some info else none

def BASE_FA : String := "https://www.filmaffinity.com"

def FILMAFFINITY_SEARCH_URL : String :=
  "https://www.filmaffinity.com/es/search.php?stext="

/-- Character-list test that the first list starts the second. -/
def chPre : List Char → List Char → Bool
  | [], _ => true
  | _ :: _, [] => false
  | a :: as, b :: bs => a == b && chPre as bs

/-- Character-list substring test. -/
def chListHas : List Char → List Char → Bool
  | needle, [] => needle.isEmpty
  | needle, c :: rest => chPre needle (c :: rest) || chListHas needle rest

/-- Substring test on strings (the Python in operator on str). -/
def hasSubstr (hay needle : String) : Bool := chListHas needle.data hay.data

/-- Python str.startswith. -/
def strStarts (s p : String) : Bool := chPre p.data s.data

/-- scraper.py lines 263-265 and 277-279: relative hrefs gain the site root. -/
def normUrl (href : String) : String :=
  if strStarts href "http" then href else BASE_FA ++ href

/-- scraper.py lines 295-317: fetch a detail page and extract; any exception
(modelled by the fetch returning none) yields none. -/
def get_filmaffinity_details (details : String → Option Page) (url : String) :
    Option MovieInfo :=
  match details url with
  | none => none
  | some p => extract_movie_info p url

/-- scraper.py lines 269-284: the part of the successful-response resolution
after the result-card branch: truthy embedded rating first, then the first
film link, then none. -/
def afterCard (details : String → Option Page) (p : Page)
    (searchUrl : String) : Option MovieInfo :=
  if ratingTruthy p.pageRating then extract_movie_info p searchUrl
  else
    match p.firstFilm with
    | some href =>
      if href ≠ "" then get_filmaffinity_details details (normUrl href)
      else none
    | none => none

/-- scraper.py lines 253-284: resolution of a successful search response. -/
def resolveSearch (details : String → Option Page) (p : Page)
    (searchUrl : String) : Option MovieInfo :=
  match p.card with
  | some (some href) =>
    if href ≠ "" then get_filmaffinity_details details (normUrl href)
    else afterCard details p searchUrl
  | _ => afterCard details p searchUrl

/-- Transport outcome of one search request: a 429, a 403, an exception
(network error or a status that raise_for_status rejects), or a parsed
response body. -/
inductive Resp
  | status429
  | status403
  | connError
  | ok (p : Page)
deriving DecidableEq

/-- Externally visible waiting and requesting steps of one search. -/
inductive TraceOp
  | courtesy (attempt : Nat)
  | request (attempt : Nat)
  | wait429 (secs : Nat)
  | wait403 (secs : Nat)
deriving DecidableEq

def isRequestOp : TraceOp → Bool
  | TraceOp.request _ => true
  | _ => false

def isWait429Op : TraceOp → Bool
  | TraceOp.wait429 _ => true
  | _ => false

/-- The retry loop of search_filmaffinity (scraper.py lines 222-292), indexed
by the remaining attempts and the current attempt number; remaining plus
attempt equals the retry budget, and a remaining count of one means the
current attempt is the last. -/
def searchLoop (responses : Nat → Resp) (details : String → Option Page)
    (searchUrl : String) : Nat → Nat → Option MovieInfo × List TraceOp
  | 0, _ => (none, [])
  | remaining + 1, attempt =>
    let pre := [TraceOp.courtesy attempt, TraceOp.request attempt]
    match responses attempt with
    | Resp.status429 =>
      if remaining = 0 then (none, pre)
      else
        let nxt := searchLoop responses details searchUrl remaining (attempt + 1)
        (nxt.1, pre ++ TraceOp.wait429 ((attempt + 1) * 30) :: nxt.2)
    | Resp.status403 =>
      if remaining = 0 then (none, pre)
      else
        let nxt := searchLoop responses details searchUrl remaining (attempt + 1)
        (nxt.1, pre ++ TraceOp.wait403 ((attempt + 1) * 15) :: nxt.2)
    | Resp.connError =>
      if remaining = 0 then (none, pre)
      else
        let nxt := searchLoop responses details searchUrl remaining (attempt + 1)
        (nxt.1, pre ++ nxt.2)
    | Resp.ok p => (resolveSearch details p searchUrl, pre)

/-- Simplified quote_plus: spaces become plus signs (the modelled queries
contain only alphanumerics and spaces). -/
def quote_plus (s : String) : String :=
  ⟨s.data.map (fun c => if c = ' ' then '+' else c)⟩

/-- scraper.py line 218: the default retry budget. -/
def RETRIES_DEFAULT : Nat := 3

/-- scraper.py lines 218-292. -/
def search_filmaffinity (responses : Nat → Resp)
    (details : String → Option Page) (title : String) (retries : Nat) :
    Option MovieInfo × List TraceOp :=
  searchLoop responses details (FILMAFFINITY_SEARCH_URL ++ quote_plus title)
    retries 0

/-! ## movie_notifier.py lookup client (lines 65-120) -/

structure NPage where
  mainTitle : Option String
  /-- the rating element: none when absent (the rating then defaults to 0.0),
  some none when its text does not parse as a float (a ValueError escapes to
  the enclosing handler), some (some v) when it parses to v. -/
  ratingEl : Option (Option ℚ)
  genres : List String
  providers : List String
deriving DecidableEq

structure NInfo where
  title : String
  rating : ℚ
  genres : String
  available : List String
  url : String
deriving DecidableEq

def joinComma : List String → String
  | [] => ""
  | [s] => s
  | s :: rest => s ++ ", " ++ joinComma rest

/-- movie_notifier.py lines 93-120; the available field is modelled as the
deduplicated provider list (the source joins a set in unspecified order). -/
def parse_movie_page (p : NPage) (url : String) : Option NInfo :=
  match p.ratingEl with
  | some none => none
  | some (some v) =>
    some ⟨p.mainTitle.getD "Unknown", v,
      if p.genres.isEmpty then "N/A" else joinComma p.genres,
      p.providers.eraseDups, url⟩
  | none =>
    some ⟨p.mainTitle.getD "Unknown", 0,
      if p.genres.isEmpty then "N/A" else joinComma p.genres,
      p.providers.eraseDups, url⟩

/-- One search response of the notifier client: final status, final URL
after redirects, the hrefs of the result-listing links, and the parsed
page body. -/
structure NResp where
  status : Nat
  url : String
  results : List String
  page : NPage
deriving DecidableEq

/-- movie_notifier.py lines 65-91. -/
def get_filmaffinity_info (fetch : String → NPage) (r : NResp) :
    Option NInfo :=
  if r.status ≠ 200 then none
  else if hasSubstr r.url "movie.php" then parse_movie_page r.page r.url
  else
    match r.results with
    | [] => none
    | h :: _ => parse_movie_page (fetch (BASE_FA ++ h)) (BASE_FA ++ h)

/-- Resolution order written after the words of the specification, for
comparison with the code: detail-page redirect first, then the first
listing candidate, then an embedded rating parsed in place, then none. -/
def resolveOrder_spec (fetch : String → NPage) (r : NResp) : Option NInfo :=
  if hasSubstr r.url "movie.php" then parse_movie_page r.page r.url
  else
    match r.results with
    | h :: _ => parse_movie_page (fetch (BASE_FA ++ h)) (BASE_FA ++ h)
    | [] =>
      match r.page.ratingEl with
      | some (some _) => parse_movie_page r.page r.url
      | _ => none

/-! ## Pipeline (scraper.py main, lines 402-499) -/

def MIN_RATING : ℚ := 7

def MAX_PELICULAS_POR_EJECUCION : Nat := 20

structure TitleInfo where
  original_title : String
  clean_title : String
deriving DecidableEq

structure GoodMovie where
  original : String
  info : MovieInfo
deriving DecidableEq

/-- The body of the processing loop for one title (scraper.py lines 450-478):
one lookup, then a record in every branch. -/
def processOne (buscarFA : String → Option MovieInfo) (today : String)
    (t : TitleInfo) (historial : Historial) : Historial × List GoodMovie :=
  match buscarFA t.clean_title with
  | some movie_info =>
    if ratingTruthy movie_info.rating then
      let rating := movie_info.rating.getD 0
      let notificado := decide (rating ≥ MIN_RATING)
      (agregar_al_historial historial t.clean_title rating notificado today,
       if notificado then [⟨t.original_title, movie_info⟩] else [])
    else
      (agregar_al_historial historial t.clean_title 0 false today, [])
  | none =>
    (agregar_al_historial historial t.clean_title 0 false today, [])

/-- The processing loop; the returned number counts the lookup calls. -/
def procesar (buscarFA : String → Option MovieInfo) (today : String) :
    List TitleInfo → Historial → Historial × Nat × List GoodMovie
  | [], historial => (historial, 0, [])
  | t :: ts, historial =>
    let paso := processOne buscarFA today t historial
    let resto := procesar buscarFA today ts paso.1
    (resto.1, resto.2.1 + 1, paso.2 ++ resto.2.2)

structure RunResult where
  historial : Historial
  lookups : Nat
  notifications : List GoodMovie
  saltadas : Nat
deriving DecidableEq

/-- One run of main over a fixed Lister output (scraper.py lines 402-499):
filter out the already analysed titles, cap the batch, process, and collect
the notifications to send. -/
def mainRun (buscarFA : String → Option MovieInfo) (today : String)
    (titles : List TitleInfo) (h0 : Historial) : RunResult :=
  let nuevos := titles.filter (fun t => !ya_analizada h0 t.clean_title)
  let lote := nuevos.take MAX_PELICULAS_POR_EJECUCION
  let res := procesar buscarFA today lote h0
  ⟨res.1, res.2.1, res.2.2, titles.length - nuevos.length⟩

/-- Twenty-one distinct short titles, one more than the per-run cap. -/
def titulos21 : List TitleInfo :=
  (List.range 21).map (fun i => ⟨"a" ++ toString i, "a" ++ toString i⟩)

/-! ## Auxiliary predicates describing normalization outputs -/

/-- The head, when present, is lowercase alphanumeric. -/
def headLowAl : List Char → Bool
  | [] => false
  | c :: _ => lowAl c

/-- The head, when present, is not a plain space. -/
def headNotSpace : List Char → Bool
  | [] => true
  | c :: _ => !(c == ' ')

/-- Every element is lowercase alphanumeric, or is a space immediately
followed by a lowercase alphanumeric element. -/
def canonAux : List Char → Bool
  | [] => true
  | c :: cs => (lowAl c || (c == ' ' && headLowAl cs)) && canonAux cs

/-- Canonical normalization output: canonAux and an alphanumeric head. -/
def canonOk : List Char → Bool
  | [] => true
  | c :: cs => lowAl c && canonAux (c :: cs)

/-- Every element is lowercase alphanumeric or a plain space, and no space is
immediately followed by another space. -/
def midOk : List Char → Bool
  | [] => true
  | c :: cs => goodCh c && (!(c == ' ') || headNotSpace cs) && midOk cs

/-! ## Pointwise character lemmas -/

theorem lowAl_spec {c : Char} (h : lowAl c = true) :
    (97 ≤ c.toNat ∧ c.toNat ≤ 122) ∨ (48 ≤ c.toNat ∧ c.toNat ≤ 57) := by
  simpa [lowAl] using h

theorem lowAl_pyLower {c : Char} (h : lowAl c = true) : pyLower c = c := by
  have h' := lowAl_spec h
  unfold pyLower
  rw [if_neg (by omega), if_neg (by omega)]

theorem lowAl_tableFold {c : Char} (h : lowAl c = true) : tableFold c = c := by
  unfold tableFold
  split_ifs with h1 h2 h3 h4 h5 h6
  · rcases h1 with rfl | rfl <;> exact absurd h (by decide)
  · rcases h2 with rfl | rfl <;> exact absurd h (by decide)
  · rcases h3 with rfl | rfl <;> exact absurd h (by decide)
  · rcases h4 with rfl | rfl <;> exact absurd h (by decide)
  · rcases h5 with rfl | rfl | rfl <;> exact absurd h (by decide)
  · subst h6; exact absurd h (by decide)
  · rfl

theorem lowAl_not_ws {c : Char} (h : lowAl c = true) : isPyWs c = false := by
  have h' := lowAl_spec h
  simp only [isPyWs, decide_eq_false_iff_not]
  omega

theorem lowAl_ne_space {c : Char} (h : lowAl c = true) : (c == ' ') = false := by
  cases hc : c == ' '
  · rfl
  · have hceq : c = ' ' := eq_of_beq hc
    subst hceq
    exact absurd h (by decide)

theorem goodCh_cases {c : Char} (h : goodCh c = true) : lowAl c = true ∨ c = ' ' := by
  simpa [goodCh] using h

theorem goodCh_pyLower {c : Char} (h : goodCh c = true) : pyLower c = c := by
  rcases goodCh_cases h with h' | rfl
  · exact lowAl_pyLower h'
  · decide

theorem goodCh_tableFold {c : Char} (h : goodCh c = true) : tableFold c = c := by
  rcases goodCh_cases h with h' | rfl
  · exact lowAl_tableFold h'
  · decide

theorem goodCh_keepCh {c : Char} (h : goodCh c = true) : keepCh c = true := by
  rcases goodCh_cases h with h' | rfl
  · simp [keepCh, h']
  · decide

theorem isPyWs_tableFold (c : Char) : isPyWs (tableFold c) = isPyWs c := by
  unfold tableFold
  split_ifs with h1 h2 h3 h4 h5 h6
  · rcases h1 with rfl | rfl <;> decide
  · rcases h2 with rfl | rfl <;> decide
  · rcases h3 with rfl | rfl <;> decide
  · rcases h4 with rfl | rfl <;> decide
  · rcases h5 with rfl | rfl | rfl <;> decide
  · subst h6; decide
  · rfl

/-! ## Commutation of stripping with character maps -/

theorem dropWhile_map_ws {g : Char → Char} (hg : ∀ c, isPyWs (g c) = isPyWs c)
    (l : List Char) :
    (l.map g).dropWhile isPyWs = (l.dropWhile isPyWs).map g := by
  induction l with
  | nil => rfl
  | cons c cs ih =>
    rw [List.map_cons, List.dropWhile_cons, List.dropWhile_cons, hg c]
    by_cases h : isPyWs c = true
    · simp [h, ih]
    · simp [h]

theorem rstripCh_map {g : Char → Char} (hg : ∀ c, isPyWs (g c) = isPyWs c)
    (l : List Char) : rstripCh (l.map g) = (rstripCh l).map g := by
  induction l with
  | nil => rfl
  | cons c cs ih =>
    rw [List.map_cons]
    simp only [rstripCh, ih]
    cases hr : rstripCh cs with
    | nil =>
      simp only [List.map_nil, hg c]
      by_cases h : isPyWs c = true
      · simp [h]
      · simp [h]
    | cons d ds => simp

theorem stripCh_map {g : Char → Char} (hg : ∀ c, isPyWs (g c) = isPyWs c)
    (l : List Char) : stripCh (l.map g) = (stripCh l).map g := by
  unfold stripCh
  rw [dropWhile_map_ws hg, rstripCh_map hg]

theorem normalizar_via_fold (s : String) :
    normalizar_titulo s =
      ⟨stripCh (collapseWs (List.filter keepCh (stripCh (s.data.map foldChar))))⟩ := by
  unfold normalizar_titulo pipelineCh
  have h1 : List.map tableFold (stripCh (List.map pyLower s.data))
      = stripCh (List.map foldChar s.data) := by
    rw [← stripCh_map isPyWs_tableFold, List.map_map]
    rfl
  rw [h1]

theorem normalizar_fold_congr {s t : String}
    (h : s.data.map foldChar = t.data.map foldChar) :
    normalizar_titulo s = normalizar_titulo t := by
  rw [normalizar_via_fold, normalizar_via_fold, h]

/-! ## Canonical-form lemmas -/

theorem canonOk_canonAux {l : List Char} (h : canonOk l = true) :
    canonAux l = true := by
  cases l with
  | nil => rfl
  | cons c cs =>
    simp only [canonOk, Bool.and_eq_true] at h
    exact h.2

theorem canonAux_good {l : List Char} (h : canonAux l = true) :
    ∀ c ∈ l, goodCh c = true := by
  induction l with
  | nil => intro c hc; cases hc
  | cons a as ih =>
    intro c hc
    simp only [canonAux, Bool.and_eq_true] at h
    rcases List.mem_cons.mp hc with rfl | hc'
    · cases hl : lowAl c with
      | true => simp [goodCh, hl]
      | false =>
        have h1 := h.1
        rw [hl] at h1
        simp only [Bool.false_or, Bool.and_eq_true] at h1
        simp [goodCh, h1.1]
    · exact ih h.2 c hc'

theorem rstripCh_canonAux {l : List Char} (h : canonAux l = true) :
    rstripCh l = l := by
  induction l with
  | nil => rfl
  | cons c cs ih =>
    simp only [canonAux, Bool.and_eq_true] at h
    have htail := ih h.2
    cases cs with
    | nil =>
      have hc : lowAl c = true := by simpa [headLowAl] using h.1
      simp [rstripCh, lowAl_not_ws hc]
    | cons d ds =>
      have e1 : rstripCh (c :: d :: ds)
          = match rstripCh (d :: ds) with
            | [] => if isPyWs c = true then [] else [c]
            | r => c :: r := rfl
      rw [e1, htail]

theorem dropWhile_canonOk {l : List Char} (h : canonOk l = true) :
    l.dropWhile isPyWs = l := by
  cases l with
  | nil => rfl
  | cons c cs =>
    simp only [canonOk, Bool.and_eq_true] at h
    simp [List.dropWhile_cons, lowAl_not_ws h.1]

theorem stripCh_canonOk {l : List Char} (h : canonOk l = true) : stripCh l = l := by
  unfold stripCh
  rw [dropWhile_canonOk h]
  exact rstripCh_canonAux (canonOk_canonAux h)

theorem collapseAux_canonAux {l : List Char} (h : canonAux l = true) :
    collapseAux false l = l ∧
      (headNotSpace l = true → collapseAux true l = l) := by
  induction l with
  | nil => exact ⟨rfl, fun _ => rfl⟩
  | cons c cs ih =>
    simp only [canonAux, Bool.and_eq_true] at h
    obtain ⟨hhead, htail⟩ := h
    have ihs := ih htail
    cases hl : lowAl c with
    | true =>
      have hws : isPyWs c = false := lowAl_not_ws hl
      exact ⟨by simp [collapseAux, hws, ihs.1], fun _ => by simp [collapseAux, hws, ihs.1]⟩
    | false =>
      rw [hl] at hhead
      simp only [Bool.false_or, Bool.and_eq_true] at hhead
      obtain ⟨hsp, hnext⟩ := hhead
      have hceq : c = ' ' := eq_of_beq hsp
      subst hceq
      cases cs with
      | nil => simp [headLowAl] at hnext
      | cons d ds =>
        have hd : lowAl d = true := by simpa [headLowAl] using hnext
        have h2 := ihs.2 (by simp [headNotSpace, lowAl_ne_space hd])
        have e1 : collapseAux false (' ' :: d :: ds)
            = ' ' :: collapseAux true (d :: ds) := rfl
        constructor
        · rw [e1, h2]
        · intro habs
          simp [headNotSpace] at habs

theorem midOk_tail {c : Char} {cs : List Char} (h : midOk (c :: cs) = true) :
    midOk cs = true := by
  simp only [midOk, Bool.and_eq_true] at h
  exact h.2

theorem midOk_head_good {c : Char} {cs : List Char} (h : midOk (c :: cs) = true) :
    goodCh c = true := by
  simp only [midOk, Bool.and_eq_true] at h
  exact h.1.1

theorem midOk_head_pair {c : Char} {cs : List Char} (h : midOk (c :: cs) = true) :
    (!(c == ' ') || headNotSpace cs) = true := by
  simp only [midOk, Bool.and_eq_true] at h
  exact h.1.2

theorem collapseAux_midOk {l : List Char} (h : ∀ c ∈ l, keepCh c = true) :
    midOk (collapseAux false l) = true ∧ midOk (collapseAux true l) = true ∧
      headNotSpace (collapseAux true l) = true := by
  induction l with
  | nil => exact ⟨rfl, rfl, rfl⟩
  | cons c cs ih =>
    have hc := h c (List.mem_cons_self c cs)
    have ihs := ih (fun x hx => h x (List.mem_cons_of_mem c hx))
    cases hws : isPyWs c with
    | true =>
      have e1 : collapseAux false (c :: cs) = ' ' :: collapseAux true cs := by
        simp [collapseAux, hws]
      have e2 : collapseAux true (c :: cs) = collapseAux true cs := by
        simp [collapseAux, hws]
      refine ⟨?_, ?_, ?_⟩
      · rw [e1]
        simp only [midOk, Bool.and_eq_true]
        refine ⟨⟨by decide, ?_⟩, ihs.2.1⟩
        simp [ihs.2.2]
      · rw [e2]; exact ihs.2.1
      · rw [e2]; exact ihs.2.2
    | false =>
      have hl : lowAl c = true := by
        simp only [keepCh, hws, Bool.or_false] at hc
        exact hc
      have e1 : collapseAux false (c :: cs) = c :: collapseAux false cs := by
        simp [collapseAux, hws]
      have e2 : collapseAux true (c :: cs) = c :: collapseAux false cs := by
        simp [collapseAux, hws]
      have hmid : midOk (c :: collapseAux false cs) = true := by
        simp only [midOk, Bool.and_eq_true]
        refine ⟨⟨by simp [goodCh, hl], ?_⟩, ihs.1⟩
        rw [lowAl_ne_space hl]
        simp
      refine ⟨?_, ?_, ?_⟩
      · rw [e1]; exact hmid
      · rw [e2]; exact hmid
      · rw [e2]
        simp [headNotSpace, lowAl_ne_space hl]

theorem midOk_dropWhile {l : List Char} (h : midOk l = true) :
    midOk (l.dropWhile isPyWs) = true := by
  induction l with
  | nil => rfl
  | cons c cs ih =>
    rw [List.dropWhile_cons]
    by_cases hws : isPyWs c = true
    · rw [if_pos hws]
      exact ih (midOk_tail h)
    · rw [if_neg hws]
      exact h

theorem rstripCh_head {l : List Char} :
    rstripCh l = [] ∨ (rstripCh l).head? = l.head? := by
  cases l with
  | nil => exact Or.inl rfl
  | cons c cs =>
    have e1 : rstripCh (c :: cs)
        = match rstripCh cs with
          | [] => if isPyWs c = true then [] else [c]
          | r => c :: r := rfl
    rw [e1]
    cases rstripCh cs with
    | nil =>
      by_cases hws : isPyWs c = true
      · left; simp [hws]
      · right; simp [hws]
    | cons d ds => right; rfl

theorem dropWhile_head_not {l : List Char} {c : Char} {cs : List Char}
    (h : l.dropWhile isPyWs = c :: cs) : isPyWs c = false := by
  induction l with
  | nil => cases h
  | cons a as ih =>
    rw [List.dropWhile_cons] at h
    by_cases ha : isPyWs a = true
    · rw [if_pos ha] at h
      exact ih h
    · rw [if_neg ha] at h
      injection h with h1 h2
      subst h1
      simpa using ha

theorem rstripCh_midOk_canonAux {l : List Char} (h : midOk l = true) :
    canonAux (rstripCh l) = true := by
  induction l with
  | nil => rfl
  | cons c cs ih =>
    have hgood := midOk_head_good h
    have hdbl := midOk_head_pair h
    have htail := midOk_tail h
    have ihs := ih htail
    have e1 : rstripCh (c :: cs)
        = match rstripCh cs with
          | [] => if isPyWs c = true then [] else [c]
          | r => c :: r := rfl
    rw [e1]
    cases hr : rstripCh cs with
    | nil =>
      by_cases hws : isPyWs c = true
      · simp [hws, canonAux]
      · have hl : lowAl c = true := by
          rcases goodCh_cases hgood with h' | rfl
          · exact h'
          · exact absurd (by decide : isPyWs ' ' = true) hws
        simp [hws, canonAux, hl, headLowAl]
    | cons d ds =>
      rw [hr] at ihs
      rcases goodCh_cases hgood with hl | hceq
      · have e2 : canonAux (c :: d :: ds)
            = ((lowAl c || (c == ' ' && headLowAl (d :: ds))) && canonAux (d :: ds)) := rfl
        rw [e2, ihs, hl]
        simp
      · subst hceq
        have hns : headNotSpace cs = true := by simpa using hdbl
        rcases rstripCh_head (l := cs) with habs | hh
        · rw [habs] at hr; cases hr
        · rw [hr] at hh
          cases cs with
          | nil => cases hr
          | cons e es =>
            have hde : d = e := by simpa using hh
            subst hde
            have hge : goodCh d = true := midOk_head_good htail
            have hes : (d == ' ') = false := by simpa [headNotSpace] using hns
            have hld : lowAl d = true := by
              rcases goodCh_cases hge with h' | rfl
              · exact h'
              · simp at hes
            have e2 : canonAux (' ' :: d :: ds)
                = ((lowAl ' ' || (' ' == ' ' && headLowAl (d :: ds))) && canonAux (d :: ds)) := rfl
            rw [e2, ihs]
            simp [headLowAl, hld]

theorem stripCh_midOk_canonOk {l : List Char} (h : midOk l = true) :
    canonOk (stripCh l) = true := by
  unfold stripCh
  have hmid := midOk_dropWhile h
  have hca := rstripCh_midOk_canonAux hmid
  cases hr : rstripCh (l.dropWhile isPyWs) with
  | nil => rfl
  | cons c cs =>
    rw [hr] at hca
    rcases rstripCh_head (l := l.dropWhile isPyWs) with habs | hh
    · rw [habs] at hr; cases hr
    · rw [hr] at hh
      cases hd : l.dropWhile isPyWs with
      | nil => rw [hd] at hr; cases hr
      | cons e es =>
        rw [hd] at hh hmid
        have hce : c = e := by simpa using hh
        subst hce
        have hgood := midOk_head_good hmid
        have hws : isPyWs c = false := dropWhile_head_not hd
        have hl : lowAl c = true := by
          rcases goodCh_cases hgood with h' | rfl
          · exact h'
          · exact absurd hws (by decide)
        simp [canonOk, hl, hca]

theorem pipelineCh_canonOk (l : List Char) : canonOk (pipelineCh l) = true := by
  unfold pipelineCh
  apply stripCh_midOk_canonOk
  have hkeep : ∀ c ∈ List.filter keepCh
      (List.map tableFold (stripCh (List.map pyLower l))), keepCh c = true := by
    intro c hc
    exact (List.mem_filter.mp hc).2
  exact (collapseAux_midOk hkeep).1

theorem map_id_of_mem {f : Char → Char} {l : List Char}
    (h : ∀ c ∈ l, f c = c) : l.map f = l := by
  induction l with
  | nil => rfl
  | cons c cs ih =>
    rw [List.map_cons, h c (List.mem_cons_self c cs),
      ih (fun x hx => h x (List.mem_cons_of_mem c hx))]

theorem filter_true_of_mem {f : Char → Bool} {l : List Char}
    (h : ∀ c ∈ l, f c = true) : l.filter f = l := by
  induction l with
  | nil => rfl
  | cons c cs ih =>
    rw [List.filter_cons, if_pos (h c (List.mem_cons_self c cs)),
      ih (fun x hx => h x (List.mem_cons_of_mem c hx))]

theorem pipelineCh_canonOk_id {l : List Char} (h : canonOk l = true) :
    pipelineCh l = l := by
  have hca : canonAux l = true := canonOk_canonAux h
  have hgood := canonAux_good hca
  unfold pipelineCh
  rw [map_id_of_mem (fun c hc => goodCh_pyLower (hgood c hc)),
    stripCh_canonOk h,
    map_id_of_mem (fun c hc => goodCh_tableFold (hgood c hc)),
    filter_true_of_mem (fun c hc => goodCh_keepCh (hgood c hc)),
    show collapseWs l = l from (collapseAux_canonAux hca).1,
    stripCh_canonOk h]

/-! ## Pipeline lemmas -/

theorem ya_agregar (historial : Historial) (tl s : String) (n : ℚ) (b : Bool)
    (f : String) :
    ya_analizada (agregar_al_historial historial tl n b f) s
      = ((clave tl == clave s) || ya_analizada historial s) := by
  simp [ya_analizada, agregar_al_historial, List.any_cons]

theorem processOne_fst (buscarFA : String → Option MovieInfo) (today : String)
    (t : TitleInfo) (historial : Historial) :
    ∃ n b, (processOne buscarFA today t historial).1
      = agregar_al_historial historial t.clean_title n b today := by
  unfold processOne
  cases buscarFA t.clean_title with
  | none => exact ⟨0, false, rfl⟩
  | some mi =>
    by_cases hr : ratingTruthy mi.rating = true
    · simp only [hr, if_true]
      exact ⟨mi.rating.getD 0, decide (mi.rating.getD 0 ≥ MIN_RATING), rfl⟩
    · simp only [hr, if_false]
      exact ⟨0, false, rfl⟩

theorem processOne_ya (buscarFA : String → Option MovieInfo) (today : String)
    (t : TitleInfo) (historial : Historial) (s : String) :
    ya_analizada (processOne buscarFA today t historial).1 s
      = ((clave t.clean_title == clave s) || ya_analizada historial s) := by
  obtain ⟨n, b, hb⟩ := processOne_fst buscarFA today t historial
  rw [hb, ya_agregar]

theorem procesar_mono (buscarFA : String → Option MovieInfo) (today : String)
    (ts : List TitleInfo) (historial : Historial) (s : String)
    (h : ya_analizada historial s = true) :
    ya_analizada (procesar buscarFA today ts historial).1 s = true := by
  induction ts generalizing historial with
  | nil => exact h
  | cons t ts ih =>
    simp only [procesar]
    exact ih _ (by rw [processOne_ya]; simp [h])

theorem procesar_mem (buscarFA : String → Option MovieInfo) (today : String)
    (ts : List TitleInfo) (historial : Historial) (t : TitleInfo) (ht : t ∈ ts) :
    ya_analizada (procesar buscarFA today ts historial).1 t.clean_title = true := by
  induction ts generalizing historial with
  | nil => cases ht
  | cons u us ih =>
    simp only [procesar]
    rcases List.mem_cons.mp ht with rfl | h'
    · apply procesar_mono
      rw [processOne_ya]
      simp
    · exact ih _ h'

theorem processOne_not_found (buscarFA : String → Option MovieInfo)
    (today : String) (t : TitleInfo) (historial : Historial)
    (hf : buscarFA t.clean_title = none) :
    buscar (processOne buscarFA today t historial).1 (clave t.clean_title)
        = some ⟨t.clean_title, 0, today, false⟩ ∧
      ya_analizada (processOne buscarFA today t historial).1 t.clean_title
        = true := by
  constructor
  · simp [processOne, hf, buscar, agregar_al_historial]
  · rw [processOne_ya]
    simp

/-! ## Retry-loop lemma under permanent rate limiting -/

theorem isWait429Op_courtesy (a : Nat) : isWait429Op (TraceOp.courtesy a) = false := rfl

theorem isWait429Op_request (a : Nat) : isWait429Op (TraceOp.request a) = false := rfl

theorem isWait429Op_wait429 (s : Nat) : isWait429Op (TraceOp.wait429 s) = true := rfl

theorem isRequestOp_courtesy (a : Nat) : isRequestOp (TraceOp.courtesy a) = false := rfl

theorem isRequestOp_request (a : Nat) : isRequestOp (TraceOp.request a) = true := rfl

theorem isRequestOp_wait429 (s : Nat) : isRequestOp (TraceOp.wait429 s) = false := rfl

theorem ite_cond_false {α : Type} (a b : α) : (if false = true then a else b) = b := rfl

theorem ite_cond_true {α : Type} (a b : α) : (if true = true then a else b) = a := rfl

theorem map_ext_mem {α β : Type} {f g : α → β} {l : List α}
    (h : ∀ a ∈ l, f a = g a) : l.map f = l.map g := by
  induction l with
  | nil => rfl
  | cons a as ih =>
    rw [List.map_cons, List.map_cons, h a (List.mem_cons_self a as),
      ih (fun x hx => h x (List.mem_cons_of_mem a hx))]

theorem wait429_shift (a : Nat) (m : Nat) :
    TraceOp.wait429 ((a + 1) * 30) ::
        (List.range m).map (fun k => TraceOp.wait429 ((a + 1 + k + 1) * 30))
      = (List.range (m + 1)).map (fun k => TraceOp.wait429 ((a + k + 1) * 30)) := by
  induction m generalizing a with
  | zero =>
    have h1 : List.range 1 = [0] := rfl
    rw [h1, List.map_cons, List.map_nil]
    simp
  | succ n ih =>
    have h3 : a + 1 + n + 1 = a + (n + 1) + 1 := by omega
    rw [List.range_succ (n := n + 1), List.map_append, ← ih a,
      List.range_succ (n := n), List.map_append, ← List.cons_append]
    simp only [List.map_cons, List.map_nil, h3]

theorem searchLoop_429 (responses : Nat → Resp) (details : String → Option Page)
    (url : String) (h429 : ∀ i, responses i = Resp.status429) :
    ∀ remaining attempt,
      (searchLoop responses details url remaining attempt).1 = none ∧
      ((searchLoop responses details url remaining attempt).2.filter
        isRequestOp).length = remaining ∧
      (searchLoop responses details url remaining attempt).2.filter isWait429Op
        = (List.range (remaining - 1)).map
            (fun k => TraceOp.wait429 ((attempt + k + 1) * 30)) := by
  intro remaining
  induction remaining with
  | zero => intro attempt; exact ⟨rfl, rfl, rfl⟩
  | succ m ih =>
    intro attempt
    have hstep : searchLoop responses details url (m + 1) attempt
        = (if m = 0 then
            ((none : Option MovieInfo),
              [TraceOp.courtesy attempt, TraceOp.request attempt])
          else
            ((searchLoop responses details url m (attempt + 1)).1,
              TraceOp.courtesy attempt :: TraceOp.request attempt ::
                TraceOp.wait429 ((attempt + 1) * 30) ::
                  (searchLoop responses details url m (attempt + 1)).2)) := by
      conv_lhs => rw [searchLoop]
      rw [h429 attempt]
      rfl
    rw [hstep]
    by_cases hm : m = 0
    · rw [if_pos hm]
      subst hm
      refine ⟨rfl, by simp [isRequestOp], by simp [isWait429Op]⟩
    · rw [if_neg hm]
      have ihs := ih (attempt + 1)
      refine ⟨ihs.1, ?_, ?_⟩
      · simp only [List.filter_cons, isRequestOp_courtesy, isRequestOp_request,
          isRequestOp_wait429, ite_cond_false, ite_cond_true, if_true, if_false,
          List.length_cons, ihs.2.1]
      · simp only [List.filter_cons, isWait429Op_courtesy, isWait429Op_request,
          isWait429Op_wait429, ite_cond_false, ite_cond_true, if_true, if_false,
          ihs.2.2]
        obtain ⟨m', rfl⟩ : ∃ m', m = m' + 1 := ⟨m - 1, by omega⟩
        simp only [Nat.add_sub_cancel]
        exact wait429_shift attempt m'

/-! ## Claim theorems -/

/-- C1 counterexample: the save operation writes no temporary file and
performs no rename; its trace opens the target file itself for writing
(and the notifier save path does the same), so the persisted document is
not produced by atomic write-to-temp-then-rename file replacement. -/
theorem C1_counterexample :
    (¬ ∃ src dst,
      FsOp.rename src dst ∈ (guardar_historial ⟨[]⟩ DiskDoc.absent).2.2) ∧
    (guardar_historial ⟨[]⟩ DiskDoc.absent).2.2.head?
      = some (FsOp.openWrite HISTORIAL_FILE) ∧
    (save_processed [] NotifDisk.absent).2.head?
      = some (FsOp.openWrite PROCESSED_FILE) := by
  refine ⟨?_, rfl, rfl⟩
  rintro ⟨src, dst, hmem⟩
  simp [guardar_historial] at hmem

/-- C1 (amended): after every successful save the in-memory mapping and the
on-disk document agree (loading what was saved returns the same mapping, and
the save reports success), but the write is a direct truncate-and-write of
the target file: the trace is exactly an open of the target followed by the
dump, with no temporary file and no rename. -/
theorem C1_save_agreement (historial : Historial) (disk : DiskDoc) :
    (guardar_historial historial disk).2.1 = true ∧
    (cargar_historial (guardar_historial historial disk).1).1 = historial ∧
    (guardar_historial historial disk).2.2
      = [FsOp.openWrite HISTORIAL_FILE,
         FsOp.writeDoc HISTORIAL_FILE historial] ∧
    ((guardar_historial historial disk).2.2.all (fun op => !isRenameOp op))
      = true :=
  ⟨rfl, rfl, rfl, rfl⟩

/-- C2 counterexample: on a malformed persisted document the scraper load
returns the empty mapping, the same value an absent document yields, instead
of failing with a CorruptStateError. -/
theorem C2_counterexample :
    (cargar_historial DiskDoc.corrupt).1 = ⟨[]⟩ ∧
    (cargar_historial DiskDoc.corrupt).1 = (cargar_historial DiskDoc.absent).1 :=
  ⟨rfl, rfl⟩

/-- C2 (amended): an absent document yields an empty mapping without error in
both scripts; a malformed document makes the scraper load print an error
line and return the empty mapping (silently discarding history apart from
the log line), while the notifier load lets the parse exception propagate. -/
theorem C2_load_behaviour :
    cargar_historial DiskDoc.absent = (⟨[]⟩, false) ∧
    cargar_historial DiskDoc.corrupt = (⟨[]⟩, true) ∧
    (∀ historial : Historial,
      cargar_historial (DiskDoc.valid historial) = (historial, false)) ∧
    load_processed NotifDisk.absent = Except.ok [] ∧
    load_processed NotifDisk.corrupt
      = Except.error "json.decoder.JSONDecodeError" :=
  ⟨rfl, rfl, fun _ => rfl, rfl, rfl⟩

/-- C3: when every request is answered with a 429 rate-limit signal, the
search makes exactly the configured number of attempts, returns the
not-found sentinel (it is a total function, so no exception reaches the
caller), and the rate-limit waits between consecutive attempts are exactly
30, 60, ... seconds: attempt index times the fixed unit of 30. -/
theorem C3_rate_limit_exhaustion (responses : Nat → Resp)
    (details : String → Option Page) (title : String) (retries : Nat)
    (h429 : ∀ i, responses i = Resp.status429) :
    (search_filmaffinity responses details title retries).1 = none ∧
    ((search_filmaffinity responses details title retries).2.filter
      isRequestOp).length = retries ∧
    (search_filmaffinity responses details title retries).2.filter isWait429Op
      = (List.range (retries - 1)).map
          (fun k => TraceOp.wait429 ((k + 1) * 30)) := by
  unfold search_filmaffinity
  have h := searchLoop_429 responses details
    (FILMAFFINITY_SEARCH_URL ++ quote_plus title) h429 retries 0
  refine ⟨h.1, h.2.1, h.2.2.trans (map_ext_mem ?_)⟩
  intro k hk
  have hk1 : 0 + k + 1 = k + 1 := by omega
  rw [hk1]

/-- C3 witness at the default budget of three attempts. -/
theorem C3_witness :
    (search_filmaffinity (fun _ => Resp.status429) (fun _ => none) "dune" 3).1
        = none ∧
    ((search_filmaffinity (fun _ => Resp.status429) (fun _ => none)
      "dune" 3).2.filter isRequestOp).length = 3 ∧
    (search_filmaffinity (fun _ => Resp.status429) (fun _ => none)
        "dune" 3).2.filter isWait429Op
      = (List.range 2).map (fun k => TraceOp.wait429 ((k + 1) * 30)) :=
  C3_rate_limit_exhaustion (fun _ => Resp.status429) (fun _ => none) "dune" 3
    (fun _ => rfl)

/-- C4 counterexample: with twenty-one fresh titles (one more than the
per-run cap of twenty) and a lookup that always reports not found, the
second run against the store persisted by the first run still performs a
rating lookup, because the first run processed only the capped batch. -/
theorem C4_counterexample :
    (mainRun (fun _ => none) "2026-01-01" titulos21
      (mainRun (fun _ => none) "2026-01-01" titulos21 ⟨[]⟩).historial).lookups
      ≠ 0 := by
  decide

/-- C4 (amended): provided the number of not-yet-processed titles does not
exceed the per-run cap, a second run of the pipeline against the same Lister
output and the store produced by the first run performs zero rating-lookup
calls and produces zero notifications: every title of the first run is
already contained in the store and is skipped. -/
theorem C4_second_run_idle (buscarFA : String → Option MovieInfo)
    (today : String) (titles : List TitleInfo) (h0 : Historial)
    (hcap : (titles.filter (fun t => !ya_analizada h0 t.clean_title)).length
      ≤ MAX_PELICULAS_POR_EJECUCION) :
    (mainRun buscarFA today titles
        (mainRun buscarFA today titles h0).historial).lookups = 0 ∧
    (mainRun buscarFA today titles
        (mainRun buscarFA today titles h0).historial).notifications = [] := by
  have hh1 : (mainRun buscarFA today titles h0).historial
      = (procesar buscarFA today
          ((titles.filter (fun t => !ya_analizada h0 t.clean_title)).take
            MAX_PELICULAS_POR_EJECUCION) h0).1 := rfl
  set h1 := (mainRun buscarFA today titles h0).historial with hset
  have hall : ∀ t ∈ titles, ya_analizada h1 t.clean_title = true := by
    intro t ht
    rw [hh1, List.take_of_length_le hcap]
    by_cases hy : ya_analizada h0 t.clean_title = true
    · exact procesar_mono _ _ _ _ _ hy
    · apply procesar_mem
      rw [List.mem_filter]
      refine ⟨ht, ?_⟩
      simp only [Bool.not_eq_true] at hy
      simp [hy]
  have hnil : titles.filter (fun t => !ya_analizada h1 t.clean_title) = [] := by
    rw [List.filter_eq_nil_iff]
    intro t ht
    simp [hall t ht]
  constructor
  · show (procesar buscarFA today
        ((titles.filter (fun t => !ya_analizada h1 t.clean_title)).take
          MAX_PELICULAS_POR_EJECUCION) h1).2.1 = 0
    rw [hnil]
    rfl
  · show (procesar buscarFA today
        ((titles.filter (fun t => !ya_analizada h1 t.clean_title)).take
          MAX_PELICULAS_POR_EJECUCION) h1).2.2 = []
    rw [hnil]
    rfl

/-- C4 witness: one fresh title, under the cap. -/
theorem C4_witness :
    (mainRun (fun _ => none) "2026-01-01" [⟨"Dune", "Dune"⟩]
        (mainRun (fun _ => none) "2026-01-01" [⟨"Dune", "Dune"⟩]
          ⟨[]⟩).historial).lookups = 0 ∧
    (mainRun (fun _ => none) "2026-01-01" [⟨"Dune", "Dune"⟩]
        (mainRun (fun _ => none) "2026-01-01" [⟨"Dune", "Dune"⟩]
          ⟨[]⟩).historial).notifications = [] :=
  C4_second_run_idle (fun _ => none) "2026-01-01" [⟨"Dune", "Dune"⟩] ⟨[]⟩
    (by decide)

/-- C5 counterexample: the pair of raw titles differing only in the
circumflex diacritic maps to different keys (the accent table of the code
is fixed and does not contain that letter, so the regex deletes it), and
the pair differing only in a period versus a space also maps to different
keys (punctuation is deleted, not collapsed to a space). -/
theorem C5_counterexample :
    (canonSpecFull "fête" = canonSpecFull "fete" ∧
      normalizar_titulo "fête" ≠ normalizar_titulo "fete") ∧
    (canonSpecFull "ab.cd" = canonSpecFull "ab cd" ∧
      normalizar_titulo "ab.cd" ≠ normalizar_titulo "ab cd") :=
  ⟨⟨by decide, by decide⟩, ⟨by decide, by decide⟩⟩

/-- C5 (amended): two titles that agree characterwise after lowercasing and
the fixed accent table of the code map to the same key; in particular the
keys of Cafe with and without accented e and capitals agree, punctuation is
deleted (a title with interior punctuation keys like the title with the
punctuation removed), and whitespace runs and space-separated punctuation
collapse. -/
theorem C5_normalization_equiv :
    (∀ s t : String, s.data.map foldChar = t.data.map foldChar →
      normalizar_titulo s = normalizar_titulo t) ∧
    normalizar_titulo "Café" = normalizar_titulo "cafe" ∧
    normalizar_titulo "¡Águila!" = normalizar_titulo "aguila" ∧
    normalizar_titulo "x!y" = normalizar_titulo "xy" ∧
    normalizar_titulo "a - b" = normalizar_titulo "a b" :=
  ⟨fun _ _ h => normalizar_fold_congr h, by decide, by decide, by decide,
    by decide⟩

/-- C5 witness: the universal part applied to a concrete case-and-accent
variant pair. -/
theorem C5_witness : normalizar_titulo "Café" = normalizar_titulo "CAFÉ" :=
  C5_normalization_equiv.1 "Café" "CAFÉ" (by decide)

/-- C6 counterexample: a successful search response whose URL is not a
detail redirect and whose results listing is empty, but whose page carries a
parseable embedded rating, is resolved by the notifier client to none, while
the resolution order of the specification (step three: parse the listing
page in place) yields a result; so the code does not follow the stated
four-step order.  In the scraper client a page with no result card and no
embedded rating but a stray film link is resolved to a found result through
the extra link-following fallback, where step four of the stated order would
return not found. -/
theorem C6_counterexample :
    get_filmaffinity_info (fun _ => ⟨none, none, [], []⟩)
      ⟨200, "https://www.filmaffinity.com/es/search.php?stext=foo",
        [], ⟨some "Foo", some (some 8), [], []⟩⟩ = none ∧
    (resolveOrder_spec (fun _ => ⟨none, none, [], []⟩)
      ⟨200, "https://www.filmaffinity.com/es/search.php?stext=foo",
        [], ⟨some "Foo", some (some 8), [], []⟩⟩).isSome = true ∧
    (resolveSearch (fun _ => some ⟨none, some 8, none, some "X", none, []⟩)
      ⟨none, none, some "/es/film1.html", none, none, []⟩
      "https://www.filmaffinity.com/es/search.php?stext=x").isSome = true :=
  ⟨by decide, by decide, by decide⟩

/-- C6 (amended): the notifier client resolves a successful response in the
order: non-200 status gives none; a detail redirect (URL containing
movie.php) is parsed in place; otherwise the first listing candidate is
followed; otherwise none, even when the listing page has an embedded
rating.  The scraper client resolves: a result card with a nonempty film
link is followed first; otherwise a truthy embedded rating is parsed in
place; otherwise a nonempty first film link is followed; otherwise none. -/
theorem C6_resolution_order :
    (∀ (fetch : String → NPage) (r : NResp), r.status ≠ 200 →
      get_filmaffinity_info fetch r = none) ∧
    (∀ (fetch : String → NPage) (r : NResp), r.status = 200 →
      hasSubstr r.url "movie.php" = true →
      get_filmaffinity_info fetch r = parse_movie_page r.page r.url) ∧
    (∀ (fetch : String → NPage) (r : NResp), r.status = 200 →
      hasSubstr r.url "movie.php" = false → r.results = [] →
      get_filmaffinity_info fetch r = none) ∧
    (∀ (fetch : String → NPage) (r : NResp) (h1 : String) (rest : List String),
      r.status = 200 → hasSubstr r.url "movie.php" = false →
      r.results = h1 :: rest →
      get_filmaffinity_info fetch r
        = parse_movie_page (fetch (BASE_FA ++ h1)) (BASE_FA ++ h1)) ∧
    (∀ (details : String → Option Page) (p : Page) (u href : String),
      p.card = some (some href) → href ≠ "" →
      resolveSearch details p u = get_filmaffinity_details details (normUrl href)) ∧
    (∀ (details : String → Option Page) (p : Page) (u : String),
      p.card = none ∨ p.card = some none ∨ p.card = some (some "") →
      resolveSearch details p u = afterCard details p u) ∧
    (∀ (details : String → Option Page) (p : Page) (u : String) (v : ℚ),
      p.pageRating = some v → v ≠ 0 →
      afterCard details p u = extract_movie_info p u) ∧
    (∀ (details : String → Option Page) (p : Page) (u href : String),
      ratingTruthy p.pageRating = false → p.firstFilm = some href →
      href ≠ "" →
      afterCard details p u = get_filmaffinity_details details (normUrl href)) ∧
    (∀ (details : String → Option Page) (p : Page) (u : String),
      ratingTruthy p.pageRating = false →
      p.firstFilm = none ∨ p.firstFilm = some "" →
      afterCard details p u = none) := by
  refine ⟨?_, ?_, ?_, ?_, ?_, ?_, ?_, ?_, ?_⟩
  · intro fetch r h
    simp [get_filmaffinity_info, h]
  · intro fetch r h200 hurl
    simp [get_filmaffinity_info, h200, hurl]
  · intro fetch r h200 hurl hres
    simp [get_filmaffinity_info, h200, hurl, hres]
  · intro fetch r h1 rest h200 hurl hres
    simp [get_filmaffinity_info, h200, hurl, hres]
  · intro details p u href hcard hne
    simp [resolveSearch, hcard, hne]
  · intro details p u hcard
    rcases hcard with h | h | h <;> simp [resolveSearch, h]
  · intro details p u v hp hv
    simp [afterCard, ratingTruthy, hp, hv]
  · intro details p u href hrt hff hne
    simp [afterCard, hrt, hff, hne]
  · intro details p u hrt hff
    rcases hff with h | h <;> simp [afterCard, hrt, h]

/-- C6 witness: the third notifier conjunct at a concrete response with no
detail redirect and an empty listing. -/
theorem C6_witness :
    get_filmaffinity_info (fun _ => ⟨none, none, [], []⟩)
      ⟨200, "https://www.filmaffinity.com/es/search.php?stext=bar",
        [], ⟨some "Bar", some (some 8), [], []⟩⟩ = none :=
  C6_resolution_order.2.2.1 (fun _ => ⟨none, none, [], []⟩)
    ⟨200, "https://www.filmaffinity.com/es/search.php?stext=bar",
      [], ⟨some "Bar", some (some 8), [], []⟩⟩ rfl (by decide) rfl

/-- C7 counterexample: a title whose lookup reports not found is recorded
with a rating of zero, a JSON number, not an absent or null rating as the
claim and the nullable-rating schema state. -/
theorem C7_counterexample :
    buscar (processOne (fun _ => none) "2026-01-01" ⟨"Dune", "Dune"⟩
        ⟨[]⟩).1 (clave "Dune")
      = some ⟨"Dune", 0, "2026-01-01", false⟩ ∧
    (entradaJson ⟨"Dune", 0, "2026-01-01", false⟩).lookup "nota"
      = some (JVal.num 0) ∧
    JVal.num 0 ≠ JVal.null := by
  refine ⟨by decide, by decide, by decide⟩

/-- C7 (amended): a title whose lookup returns the not-found sentinel is
recorded under its dedup key with rating zero (serialized as the JSON
number zero, not null) and notified false, and a later run over that title
against the updated store performs zero lookups. -/
theorem C7_not_found_record (buscarFA : String → Option MovieInfo)
    (today : String) (t : TitleInfo) (historial : Historial)
    (hf : buscarFA t.clean_title = none) :
    buscar (processOne buscarFA today t historial).1 (clave t.clean_title)
        = some ⟨t.clean_title, 0, today, false⟩ ∧
      (entradaJson ⟨t.clean_title, 0, today, false⟩).lookup "nota"
        = some (JVal.num 0) ∧
      (∀ (buscarFA2 : String → Option MovieInfo) (today2 : String),
        (mainRun buscarFA2 today2 [t]
          (processOne buscarFA today t historial).1).lookups = 0) := by
  refine ⟨(processOne_not_found buscarFA today t historial hf).1, rfl, ?_⟩
  intro buscarFA2 today2
  have hya := (processOne_not_found buscarFA today t historial hf).2
  show (procesar buscarFA2 today2
      (([t].filter (fun u => !ya_analizada
          (processOne buscarFA today t historial).1 u.clean_title)).take
        MAX_PELICULAS_POR_EJECUCION)
      (processOne buscarFA today t historial).1).2.1 = 0
  rw [show [t].filter (fun u => !ya_analizada
      (processOne buscarFA today t historial).1 u.clean_title) = [] by
    simp [List.filter_cons, hya]]
  rfl

/-- C7 witness at a concrete not-found title. -/
theorem C7_witness :
    buscar (processOne (fun _ => none) "2026-02-02" ⟨"Alien", "Alien"⟩
        ⟨[]⟩).1 (clave "Alien")
      = some ⟨"Alien", 0, "2026-02-02", false⟩ :=
  (C7_not_found_record (fun _ => none) "2026-02-02" ⟨"Alien", "Alien"⟩
    ⟨[]⟩ rfl).1

/-- C8: for every found lookup result carrying a rating, the recorded
notified flag equals the comparison of the rating against the threshold;
at a rating exactly equal to the threshold the flag is true, below it the
flag is false (a found rating of zero is routed through the not-found
branch, which also records false, agreeing with the comparison). -/
theorem C8_threshold (buscarFA : String → Option MovieInfo) (today : String)
    (t : TitleInfo) (historial : Historial) (mi : MovieInfo) (r : ℚ)
    (hf : buscarFA t.clean_title = some mi) (hr : mi.rating = some r) :
    ∃ e, buscar (processOne buscarFA today t historial).1 (clave t.clean_title)
        = some e ∧ e.notificado = decide (r ≥ MIN_RATING) := by
  by_cases h0 : r = 0
  · subst h0
    have ht : ratingTruthy mi.rating = false := by simp [ratingTruthy, hr]
    refine ⟨⟨t.clean_title, 0, today, false⟩, ?_, ?_⟩
    · simp [processOne, hf, ht, buscar, agregar_al_historial]
    · show (false : Bool) = decide ((0 : ℚ) ≥ MIN_RATING)
      decide
  · have ht : ratingTruthy (some r) = true := by simp [ratingTruthy, h0]
    refine ⟨⟨t.clean_title, r, today, decide (r ≥ MIN_RATING)⟩, ?_, rfl⟩
    simp [processOne, hf, hr, ht, buscar, agregar_al_historial]

/-- C8 witness: a rating exactly at the threshold yields a recorded flag
equal to the comparison, that is true. -/
theorem C8_witness :
    ∃ e, buscar (processOne (fun _ => some ⟨"u", "Seven", some 7, "g", []⟩)
        "2026-03-03" ⟨"Seven", "Seven"⟩ ⟨[]⟩).1 (clave "Seven") = some e ∧
      e.notificado = decide ((7 : ℚ) ≥ MIN_RATING) :=
  C8_threshold (fun _ => some ⟨"u", "Seven", some 7, "g", []⟩) "2026-03-03"
    ⟨"Seven", "Seven"⟩ ⟨[]⟩ ⟨"u", "Seven", some 7, "g", []⟩ 7 rfl rfl

/-- C9: the dedup-key normalization is idempotent: applying it to its own
output returns that output unchanged. -/
theorem C9_dedup_idempotent (s : String) :
    normalizar_titulo (normalizar_titulo s) = normalizar_titulo s := by
  unfold normalizar_titulo
  congr 1
  exact pipelineCh_canonOk_id (pipelineCh_canonOk s.data)

/-- C10: a detail page whose extracted rating is exactly zero is discarded
by the extraction (the rating field is falsy), making it indistinguishable
at the lookup interface from a page with no rating at all; following such a
page through the detail fetch yields the not-found sentinel, and the
pipeline then records the title as not found with rating zero and notified
false. -/
theorem C10_zero_rating (p : Page) (url today : String) (t : TitleInfo)
    (historial : Historial) (hp : p.pageRating = some 0) :
    extract_movie_info p url = none ∧
      get_filmaffinity_details (fun _ => some p) url = none ∧
      extract_movie_info p url
        = extract_movie_info { p with pageRating := none } url ∧
      buscar (processOne
          (fun _ => get_filmaffinity_details (fun _ => some p) url)
          today t historial).1 (clave t.clean_title)
        = some ⟨t.clean_title, 0, today, false⟩ := by
  have h1 : extract_movie_info p url = none := by
    simp [extract_movie_info, ratingTruthy, hp]
  have h2 : get_filmaffinity_details (fun _ => some p) url = none := by
    simp [get_filmaffinity_details, h1]
  refine ⟨h1, h2, ?_, ?_⟩
  · rw [h1]
    simp [extract_movie_info, ratingTruthy]
  · exact (processOne_not_found _ today t historial h2).1

/-- C10 witness at a concrete zero-rated detail page. -/
theorem C10_witness :
    extract_movie_info ⟨none, some 0, none, some "Z", none, []⟩ "u" = none ∧
      get_filmaffinity_details
        (fun _ => some ⟨none, some 0, none, some "Z", none, []⟩) "u" = none ∧
      extract_movie_info ⟨none, some 0, none, some "Z", none, []⟩ "u"
        = extract_movie_info
            { (⟨none, some 0, none, some "Z", none, []⟩ : Page) with
              pageRating := none } "u" ∧
      buscar (processOne
          (fun _ => get_filmaffinity_details
            (fun _ => some ⟨none, some 0, none, some "Z", none, []⟩) "u")
          "2026-04-04" ⟨"Zero", "Zero"⟩ ⟨[]⟩).1 (clave "Zero")
        = some ⟨"Zero", 0, "2026-04-04", false⟩ :=
  C10_zero_rating ⟨none, some 0, none, some "Z", none, []⟩ "u" "2026-04-04"
    ⟨"Zero", "Zero"⟩ ⟨[]⟩ rfl
